import Mathlib

/-!
Verification of the survey scoring engine (src/src/App.jsx).

The JavaScript source is shallowly embedded: JS objects used as string-keyed
maps become association lists with first-match lookup, JS numbers become ℚ
(every number the program manipulates is produced by exact small-integer
arithmetic and division), `Math.round` becomes `fun q => (q + 1/2).floor`
(JS rounds half toward +∞ and all rounded values here are nonnegative), and
the ES2019-stable `Array.prototype.sort` becomes `List.mergeSort`.
-/

namespace Survey

/-- First-match lookup in a string-keyed association list; models JS object
property access `obj[key]` (objects built by the loader have unique keys). -/
def sLookup {α : Type} : List (String × α) → String → Option α
  | [], _ => none
  | (k, v) :: rest, key => if k = key then some v else sLookup rest key

/-- Insert-or-overwrite for a string-keyed association list; models JS
property assignment `obj[key] = v`, which keeps the insertion position of an
existing key. -/
def setKey {α : Type} : List (String × α) → String → α → List (String × α)
  | [], key, v => [(key, v)]
  | (k, w) :: rest, key, v =>
      if k = key then (key, v) :: rest else (k, w) :: setKey rest key v

/-- Model of JS `String.prototype.trim` for ASCII content: drop leading and
trailing whitespace characters. -/
def jsTrim (s : String) : String :=
  String.mk (((s.data.dropWhile Char.isWhitespace).reverse.dropWhile Char.isWhitespace).reverse)

/-- Model of JS `String.prototype.toUpperCase` for ASCII content. -/
def jsToUpper (s : String) : String :=
  String.mk (s.data.map Char.toUpper)

/-- Translation of `letterToPriority` (App.jsx lines 34-44): normalise the
input by trimming and uppercasing (`String(letter).trim().toUpperCase()`),
then apply the fixed table `{A:0, B:1, C:3, D:5, E:5}`, with 0 for anything
unrecognised (`map[l] ?? 0`). -/
def letterToPriority (letter : String) : ℚ :=
  let l := jsToUpper (jsTrim letter)
  if l = "A" then 0
  else if l = "B" then 1
  else if l = "C" then 3
  else if l = "D" then 5
  else if l = "E" then 5
  else 0

/-- Translation of one entry of the `PROFILES` table (App.jsx lines 49-94). -/
structure Profile where
  key : String
  label : String
  descr : String
  categoryWeights : List (String × ℚ)
  defaultForOthers : ℚ
deriving DecidableEq

/-- Profile "all" (App.jsx lines 50-56). -/
def allProfile : Profile :=
  { key := "all", label := "All attributes"
    descr := "Uses every attribute equally."
    categoryWeights := []
    defaultForOthers := 1 }

/-- Profile "people" (App.jsx lines 57-68). -/
def peopleProfile : Profile :=
  { key := "people", label := "People focus"
    descr := "Prioritises human impacts and core planning attributes."
    categoryWeights :=
      [("Hazard", 1), ("Risk context", 1), ("Impact – people", 1), ("Recovery", 1)]
    defaultForOthers := 0 }

/-- Profile "services" (App.jsx lines 69-80). -/
def servicesProfile : Profile :=
  { key := "services", label := "Services focus"
    descr := "Prioritises critical services and infrastructure."
    categoryWeights :=
      [("Hazard", 1), ("Risk context", 1), ("Impact – services", 1), ("Recovery", 1)]
    defaultForOthers := 0 }

/-- Profile "economy_env" (App.jsx lines 81-93). -/
def economyEnvProfile : Profile :=
  { key := "economy_env", label := "Economy & environment"
    descr := "Prioritises economic and environmental impacts."
    categoryWeights :=
      [("Hazard", 1), ("Risk context", 1), ("Impact – economy", 1),
       ("Impact – env", 1), ("Recovery", 1)]
    defaultForOthers := 0 }

/-- The `PROFILES` constant (App.jsx lines 49-94), keyed as in the source. -/
def PROFILES : List (String × Profile) :=
  [("all", allProfile), ("people", peopleProfile),
   ("services", servicesProfile), ("economy_env", economyEnvProfile)]

/-- Translation of `getProfileMultiplier` (App.jsx lines 96-101):
`PROFILES[profileKey] || PROFILES.all`, a hard-coded 1 for the key "all",
otherwise `categoryWeights[category] ?? defaultForOthers`. -/
def getProfileMultiplier (profileKey category : String) : ℚ :=
  let profile := (sLookup PROFILES profileKey).getD allProfile
  if profileKey = "all" then 1
  else (sLookup profile.categoryWeights category).getD profile.defaultForOthers

/-- Attribute record as produced by the attributes loader (App.jsx
lines 218-224): id, category and text. -/
structure AttributeRec where
  id : String
  category : String
  text : String
deriving DecidableEq

/-- Relevance entry value as built by the scores loader (App.jsx
lines 236-253): the normalised letter together with its priority. -/
structure RelInfo where
  letter : String
  priority : ℚ
deriving DecidableEq

/-- Hazard record as produced by the hazards loader (App.jsx lines 227-233). -/
structure Hazard where
  id : String
  code : String
  name : String
deriving DecidableEq

/-- Category used when scoring an entry (App.jsx lines 719-720): the matching
attribute's category, with "Other" when the attribute is missing or its
category is falsy (`attr?.category || "Other"`). -/
def categoryOf (attributes : List AttributeRec) (attrId : String) : String :=
  match attributes.find? (fun a => a.id == attrId) with
  | some a => if a.category = "" then "Other" else a.category
  | none => "Other"

/-- Amount one relevance entry adds to a hazard's total (App.jsx
lines 714-725): the user answer defaults to 3, terms whose profile
multiplier is 0 are skipped, the rest contribute priority × answer ×
multiplier. -/
def termValue (attributes : List AttributeRec) (answers : List (String × ℚ))
    (profileKey : String) (attrId : String) (info : RelInfo) : ℚ :=
  let userScore := (sLookup answers attrId).getD 3
  let m := getProfileMultiplier profileKey (categoryOf attributes attrId)
  if m = 0 then 0 else info.priority * userScore * m

/-- Raw-score accumulation over one hazard's relevance entries (the
`Object.entries(weights).forEach` loop, App.jsx lines 712-725). -/
def rawScoreEntries (attributes : List AttributeRec) (answers : List (String × ℚ))
    (profileKey : String) (entries : List (String × RelInfo)) : ℚ :=
  entries.foldl (fun total p => total + termValue attributes answers profileKey p.1 p.2) 0

/-- Raw score of one hazard id: its entry list comes from `hazardWeights`
with `|| {}` when the hazard has none (App.jsx lines 710-727). -/
def rawScoreOf (attributes : List AttributeRec) (answers : List (String × ℚ))
    (hazardWeights : List (String × List (String × RelInfo)))
    (profileKey : String) (hazardId : String) : ℚ :=
  rawScoreEntries attributes answers profileKey ((sLookup hazardWeights hazardId).getD [])

/-- Model of `Math.round` as the source applies it (App.jsx line 734): JS
rounds half toward +∞, and every value rounded by the program is
nonnegative, so `⌊q + 1/2⌋` is exact. -/
def jsRound (q : ℚ) : ℤ :=
  (q + 1/2).floor

/-- Model of `Math.max(...raws, 1)` (App.jsx line 731). -/
def maxRaw (raws : List ℚ) : ℚ :=
  raws.foldr max 1

/-- One scoring computation's inputs: the props of `FinalResults` that the
score depends on, plus the selected profile key (App.jsx lines 689-700). -/
structure ScoreInput where
  attributes : List AttributeRec
  answers : List (String × ℚ)
  hazardWeights : List (String × List (String × RelInfo))
  profileKey : String
  hazards : List Hazard

/-- Raw score of a hazard within one computation (App.jsx lines 710-727). -/
def ScoreInput.rawOf (inp : ScoreInput) (h : Hazard) : ℚ :=
  rawScoreOf inp.attributes inp.answers inp.hazardWeights inp.profileKey h.id

/-- The list `raw.map((h) => h.rawScore)` (App.jsx line 731). -/
def ScoreInput.rawValues (inp : ScoreInput) : List ℚ :=
  inp.hazards.map inp.rawOf

/-- The divisor `max` (App.jsx line 731). -/
def ScoreInput.maxScore (inp : ScoreInput) : ℚ :=
  maxRaw inp.rawValues

/-- The unrounded value `norm = (h.rawScore / max) * 100` (App.jsx
line 733); the band is derived from this value, not from the rounded one. -/
def ScoreInput.normOf (inp : ScoreInput) (h : Hazard) : ℚ :=
  inp.rawOf h / inp.maxScore * 100

/-- The displayed score `h.normalised = Math.round(norm)` (App.jsx
line 734). -/
def ScoreInput.normalisedOf (inp : ScoreInput) (h : Hazard) : ℤ :=
  jsRound (inp.normOf h)

/-- Band thresholds applied to the unrounded norm (App.jsx lines 736-738). -/
def bandOf (norm : ℚ) : String :=
  if 67 ≤ norm then "High"
  else if 34 ≤ norm then "Medium"
  else "Low"

/-- Band of a hazard within one computation (App.jsx lines 736-738). -/
def ScoreInput.bandOfHaz (inp : ScoreInput) (h : Hazard) : String :=
  bandOf (inp.normOf h)

/-- Rational values that are nonnegative integers; the loader and the survey
widget only ever put such values into answers and priorities. -/
def IsNatValued (q : ℚ) : Prop :=
  q.den = 1 ∧ 0 ≤ q.num

instance (q : ℚ) : Decidable (IsNatValued q) :=
  inferInstanceAs (Decidable (q.den = 1 ∧ 0 ≤ q.num))

/-- Exposure value recorded for a hazard under one exposure category
(the lookups at App.jsx lines 745-747 and 762-768). -/
def recordedExposure (exposures : List (String × List (String × ℚ)))
    (expoType : String) (h : Hazard) : Option ℚ :=
  (sLookup exposures h.id).bind (fun m => sLookup m expoType)

/-- Translation of the `maxExposure` scan (App.jsx lines 742-752): start at
0 and take any recorded value that exceeds the current maximum. -/
def maxExposureOf (exposures : List (String × List (String × ℚ)))
    (expoType : String) (hazards : List Hazard) : ℚ :=
  hazards.foldl (fun acc h =>
    match recordedExposure exposures expoType h with
    | none => acc
    | some v => if acc < v then v else acc) 0

/-- Translation of the per-hazard exposure normalisation (App.jsx
lines 754-771), for a chosen exposure category: null when the exposure axis
is unavailable (`maxExposure` not positive) or the hazard has no recorded
value, otherwise `v / maxExposure * 100`. -/
def exposureNormOf (exposures : List (String × List (String × ℚ)))
    (expoType : String) (hazards : List Hazard) (h : Hazard) : Option ℚ :=
  let mx := maxExposureOf exposures expoType hazards
  if 0 < mx then
    match recordedExposure exposures expoType h with
    | none => none
    | some v => some (v / mx * 100)
  else none

/-- One CSV cell as `weightedIndex` (App.jsx lines 119-131) discriminates
it: absent (`raw == null`), the empty string, the literal "N/A", a cell that
`parseFloat` reads as the number q, or a non-numeric cell (`parseFloat`
yields NaN). -/
inductive Cell where
  | missing
  | empty
  | na
  | num (q : ℚ)
  | nonNum
deriving DecidableEq

/-- Field access `row[key]` for an exposure row: absent fields read as
`Cell.missing`. -/
def cellOf (cells : List (String × Cell)) (key : String) : Cell :=
  (sLookup cells key).getD Cell.missing

/-- The `LEVELS` constant (App.jsx line 117). -/
def LEVELS : List ℚ :=
  [1, 2, 3, 4, 5]

/-- Translation of `weightedIndex(row, prefix)` (App.jsx lines 119-131):
fold over levels 1..5, skip missing/empty/"N/A"/non-numeric cells, and
accumulate `level × value` for the field named `{prefix}{level}` (the bare
level when the prefix is empty, since `prefix ? prefix+lvl : String(lvl)`
is then just the level's digits). -/
def weightedIndex (cells : List (String × Cell)) (pre : String) : ℚ :=
  LEVELS.foldl (fun sum lvl =>
    match cellOf cells (pre ++ toString lvl) with
    | Cell.num n => sum + lvl * n
    | _ => sum) 0

/-- Value a single cell contributes per the spec's formula: its number when
numeric, 0 when missing, empty, "N/A" or non-numeric. -/
def cellValue : Cell → ℚ
  | Cell.num q => q
  | _ => 0

/-- The spec's formula for the weighted index: Σ over levels 1..5 of
level × value, with absent-like cells contributing 0. -/
def claimIndex (cells : List (String × Cell)) (pre : String) : ℚ :=
  (LEVELS.map (fun lvl => lvl * cellValue (cellOf cells (pre ++ toString lvl)))).sum

/-- The four exposure categories with their column-name prefixes (App.jsx
lines 143-168). -/
def CATEGORY_NAMES : List (String × String) :=
  [("All assets", ""), ("Lands", "Lands"), ("Personnel", "Personnel"),
   ("Buildings", "Buildings")]

/-- Metrics recorded for one exposure row (App.jsx lines 140-168): each of
the four categories is added exactly when its weighted index is strictly
positive. -/
def rowMetrics (cells : List (String × Cell)) : List (String × ℚ) :=
  (if 0 < weightedIndex cells "" then [("All assets", weightedIndex cells "")] else []) ++
  (if 0 < weightedIndex cells "Lands" then [("Lands", weightedIndex cells "Lands")] else []) ++
  (if 0 < weightedIndex cells "Personnel" then
    [("Personnel", weightedIndex cells "Personnel")] else []) ++
  (if 0 < weightedIndex cells "Buildings" then
    [("Buildings", weightedIndex cells "Buildings")] else [])

/-- One parsed exposure CSV row: the `Code` column (the hazard id, with ""
standing for a missing or empty — falsy — code) and the remaining cells. -/
structure ExpoRow where
  code : String
  cells : List (String × Cell)

/-- Translation of the row loop of `parseExposureCsv` (App.jsx
lines 133-174): skip rows without a code, skip rows whose metrics came out
empty, otherwise store the metrics under the code. -/
def parseExposure (rows : List ExpoRow) : List (String × List (String × ℚ)) :=
  rows.foldl (fun acc r =>
    if r.code = "" then acc
    else if rowMetrics r.cells = [] then acc
    else setKey acc r.code (rowMetrics r.cells)) []

/-- Scored hazard as assembled by `FinalResults` before sorting (App.jsx
lines 710-739); the exposure fields are handled by `exposureNormOf` and do
not influence the sort. -/
structure ScoredHazard where
  id : String
  code : String
  name : String
  rawScore : ℚ
  normalised : ℤ
  band : String
deriving DecidableEq

/-- The scored list in hazard-table order (App.jsx lines 710-739). -/
def scoredList (inp : ScoreInput) : List ScoredHazard :=
  inp.hazards.map (fun h =>
    { id := h.id, code := h.code, name := h.name
      rawScore := inp.rawOf h
      normalised := inp.normalisedOf h
      band := inp.bandOfHaz h })

/-- Translation of `raw.sort((a, b) => b.normalised - a.normalised)`
(App.jsx line 773): a stable sort that puts `a` before `b` exactly when
`b.normalised - a.normalised ≤ 0`. -/
def sortScored (l : List ScoredHazard) : List ScoredHazard :=
  l.mergeSort (fun a b => decide (b.normalised ≤ a.normalised))

/-- The sorted scored list of one computation. -/
def sortedScoredList (inp : ScoreInput) : List ScoredHazard :=
  sortScored (scoredList inp)

/-- One row of the hazard breakdown table (App.jsx lines 1014-1033). -/
structure BreakdownRow where
  attrText : String
  category : String
  userImp : ℚ
  hazardScoreNum : ℚ
  hazardScoreLetter : String
  contribution : ℚ
deriving DecidableEq

/-- Translation of the row construction of `HazardBreakdown` (App.jsx
lines 1014-1033) for entries in the `{letter, priority}` form the loader
produces: text and category fall back per `attr?.text || attrId` and
`attr?.category || ""`, the answer defaults to 3, and the contribution is
userImportance × priority — no profile multiplier. -/
def mkBreakdownRow (attributes : List AttributeRec) (answers : List (String × ℚ))
    (attrId : String) (info : RelInfo) : BreakdownRow :=
  let attr := attributes.find? (fun a => a.id == attrId)
  let userImp := (sLookup answers attrId).getD 3
  { attrText :=
      match attr with
      | some a => if a.text = "" then attrId else a.text
      | none => attrId
    category :=
      match attr with
      | some a => a.category
      | none => ""
    userImp := userImp
    hazardScoreNum := info.priority
    hazardScoreLetter := if info.letter = "" then "?" else info.letter
    contribution := userImp * info.priority }

/-- Translation of `HazardBreakdown`'s rows pipeline (App.jsx
lines 1014-1035): map the hazard's relevance entries to rows, then stable
sort by contribution descending (`rows.sort((a, b) => b.contribution -
a.contribution)`). -/
def explainRows (attributes : List AttributeRec) (answers : List (String × ℚ))
    (entries : List (String × RelInfo)) : List BreakdownRow :=
  (entries.map (fun p => mkBreakdownRow attributes answers p.1 p.2)).mergeSort
    (fun a b => decide (b.contribution ≤ a.contribution))

/-- Concrete scoring computation used by the C2 witness: one answered
attribute, relevance D for hazard H1, nothing for H2. -/
def egInputA : ScoreInput :=
  { attributes := [⟨"A1", "Hazard", "people impact"⟩]
    answers := [("A1", 5)]
    hazardWeights := [("H1", [("A1", ⟨"D", 5⟩)])]
    profileKey := "all"
    hazards := [⟨"H1", "H1", "Hazard one"⟩, ⟨"H2", "H2", "Hazard two"⟩] }

/-- Concrete scoring computation used for claim C3: raw scores 2 and 3, so
hazard H1 has norm 200/3 ≈ 66.67, which rounds to 67 but bands Medium. -/
def egInputB : ScoreInput :=
  { attributes := [⟨"A1", "Hazard", "a1"⟩, ⟨"A2", "Hazard", "a2"⟩]
    answers := [("A1", 2), ("A2", 3)]
    hazardWeights := [("H1", [("A1", ⟨"B", 1⟩)]), ("H2", [("A2", ⟨"B", 1⟩)])]
    profileKey := "all"
    hazards := [⟨"H1", "H1", "h1"⟩, ⟨"H2", "H2", "h2"⟩] }

/-- Concrete exposure row cells from the spec's scenario: `Lands1=2,
Lands3=4`, everything else absent. -/
def egLandsCells : List (String × Cell) :=
  [("Lands1", Cell.num 2), ("Lands3", Cell.num 4)]

end Survey

namespace Survey

theorem rawScoreEntries_shift (attributes : List AttributeRec)
    (answers : List (String × ℚ)) (profileKey : String) :
    ∀ (entries : List (String × RelInfo)) (a : ℚ),
      entries.foldl (fun total p => total + termValue attributes answers profileKey p.1 p.2) a =
        a + (entries.map (fun p => termValue attributes answers profileKey p.1 p.2)).sum := by
  intro entries
  induction entries with
  | nil => simp
  | cons x xs ih =>
    intro a
    simp only [List.foldl_cons, ih, List.map_cons, List.sum_cons]
    ring

theorem rawScoreEntries_eq_sum (attributes : List AttributeRec)
    (answers : List (String × ℚ)) (profileKey : String)
    (entries : List (String × RelInfo)) :
    rawScoreEntries attributes answers profileKey entries =
      (entries.map (fun p => termValue attributes answers profileKey p.1 p.2)).sum := by
  unfold rawScoreEntries
  rw [rawScoreEntries_shift, zero_add]

theorem termValue_eq (attributes : List AttributeRec) (answers : List (String × ℚ))
    (profileKey attrId : String) (info : RelInfo) :
    termValue attributes answers profileKey attrId info =
      info.priority * ((sLookup answers attrId).getD 3) *
        getProfileMultiplier profileKey (categoryOf attributes attrId) := by
  simp only [termValue]
  split_ifs with h
  · rw [h, mul_zero]
  · rfl

/-- Claim C1: for every hazard, the raw score is the sum, over exactly the
relevance entries recorded for it, of priority × answer × profile
multiplier, where the answer defaults to 3 for unanswered attributes; the
code's skipping of multiplier-zero terms yields the same raw score as
including them multiplied by zero. -/
theorem spec_C1 (attributes : List AttributeRec) (answers : List (String × ℚ))
    (hazardWeights : List (String × List (String × RelInfo)))
    (profileKey hazardId : String) :
    rawScoreOf attributes answers hazardWeights profileKey hazardId =
      (((sLookup hazardWeights hazardId).getD []).map (fun p =>
        p.2.priority * ((sLookup answers p.1).getD 3) *
          getProfileMultiplier profileKey (categoryOf attributes p.1))).sum := by
  unfold rawScoreOf
  rw [rawScoreEntries_eq_sum]
  simp only [termValue_eq]

theorem sLookup_mem {α : Type} :
    ∀ {l : List (String × α)} {k : String} {v : α}, sLookup l k = some v → (k, v) ∈ l := by
  intro l
  induction l with
  | nil => intro k v h; simp [sLookup] at h
  | cons x xs ih =>
    obtain ⟨a, b⟩ := x
    intro k v h
    simp only [sLookup] at h
    split_ifs at h with ha
    · obtain rfl := ha
      obtain rfl : b = v := by simpa using h
      exact List.mem_cons_self _ _
    · exact List.mem_cons_of_mem _ (ih h)

theorem jsRound_eq (q : ℚ) : jsRound q = ⌊q + 1/2⌋ := by
  rw [jsRound, Rat.floor_def', Rat.floor_def]

theorem jsRound_mono {a b : ℚ} (h : a ≤ b) : jsRound a ≤ jsRound b := by
  rw [jsRound_eq, jsRound_eq]
  exact Int.floor_mono (by linarith)

theorem jsRound_zero : jsRound 0 = 0 := by
  norm_num [jsRound, Rat.floor_def']

theorem jsRound_hundred : jsRound 100 = 100 := by
  norm_num [jsRound, Rat.floor_def']

theorem jsRound_nonneg {q : ℚ} (h : 0 ≤ q) : 0 ≤ jsRound q := by
  rw [← jsRound_zero]
  exact jsRound_mono h

theorem jsRound_le_hundred {q : ℚ} (h : q ≤ 100) : jsRound q ≤ 100 := by
  rw [← jsRound_hundred]
  exact jsRound_mono h

theorem one_le_maxRaw (l : List ℚ) : 1 ≤ maxRaw l := by
  induction l with
  | nil => exact le_refl 1
  | cons a t ih => exact le_trans ih (le_max_right a (maxRaw t))

theorem le_maxRaw_of_mem {l : List ℚ} {r : ℚ} (h : r ∈ l) : r ≤ maxRaw l := by
  induction l with
  | nil => simp at h
  | cons a t ih =>
    rcases List.mem_cons.mp h with rfl | ht
    · exact le_max_left r (maxRaw t)
    · exact le_trans (ih ht) (le_max_right a (maxRaw t))

theorem maxRaw_mem_or_one (l : List ℚ) : maxRaw l ∈ l ∨ maxRaw l = 1 := by
  induction l with
  | nil => exact Or.inr rfl
  | cons a t ih =>
    have hstep : maxRaw (a :: t) = max a (maxRaw t) := rfl
    rcases le_total a (maxRaw t) with hle | hge
    · rw [hstep, max_eq_right hle]
      rcases ih with hm | h1
      · exact Or.inl (List.mem_cons_of_mem a hm)
      · exact Or.inr h1
    · rw [hstep, max_eq_left hge]
      exact Or.inl (List.mem_cons_self a t)

theorem isNatValued_iff (q : ℚ) : IsNatValued q ↔ ∃ n : ℕ, q = (n : ℚ) := by
  constructor
  · rintro ⟨hd, hn⟩
    refine ⟨q.num.toNat, ?_⟩
    have h2 : ((q.num.toNat : ℤ) : ℚ) = ((q.num : ℤ) : ℚ) := by
      rw [Int.toNat_of_nonneg hn]
    calc q = ((q.num : ℤ) : ℚ) := (Rat.coe_int_num_of_den_eq_one hd).symm
    _ = ((q.num.toNat : ℤ) : ℚ) := h2.symm
    _ = ((q.num.toNat : ℕ) : ℚ) := by push_cast; rfl
  · rintro ⟨n, rfl⟩
    exact ⟨Rat.den_natCast n, by rw [Rat.num_natCast]; exact Int.ofNat_nonneg n⟩

theorem IsNatValued.nonneg {q : ℚ} (h : IsNatValued q) : 0 ≤ q := by
  obtain ⟨n, rfl⟩ := (isNatValued_iff q).mp h
  exact Nat.cast_nonneg n

theorem IsNatValued.one_le_of_pos {q : ℚ} (h : IsNatValued q) (hp : 0 < q) : 1 ≤ q := by
  obtain ⟨n, rfl⟩ := (isNatValued_iff q).mp h
  have hn : 0 < n := by exact_mod_cast hp
  exact_mod_cast hn

theorem IsNatValued.add {a b : ℚ} (ha : IsNatValued a) (hb : IsNatValued b) :
    IsNatValued (a + b) := by
  rw [isNatValued_iff] at ha hb ⊢
  obtain ⟨m, rfl⟩ := ha
  obtain ⟨n, rfl⟩ := hb
  exact ⟨m + n, by push_cast; ring⟩

theorem IsNatValued.mul {a b : ℚ} (ha : IsNatValued a) (hb : IsNatValued b) :
    IsNatValued (a * b) := by
  rw [isNatValued_iff] at ha hb ⊢
  obtain ⟨m, rfl⟩ := ha
  obtain ⟨n, rfl⟩ := hb
  exact ⟨m * n, by push_cast; ring⟩

theorem isNatValued_sum (l : List ℚ) (h : ∀ q ∈ l, IsNatValued q) : IsNatValued l.sum := by
  induction l with
  | nil => exact (isNatValued_iff 0).mpr ⟨0, by norm_num⟩
  | cons a t ih =>
    rw [List.sum_cons]
    exact IsNatValued.add (h a (List.mem_cons_self a t))
      (ih (fun q hq => h q (List.mem_cons_of_mem a hq)))

theorem weights_lookup_zero_or_one (l : List (String × ℚ)) (d : ℚ)
    (hl : ∀ p ∈ l, p.2 = 0 ∨ p.2 = 1) (hd : d = 0 ∨ d = 1) (c : String) :
    (sLookup l c).getD d = 0 ∨ (sLookup l c).getD d = 1 := by
  induction l with
  | nil => simpa [sLookup] using hd
  | cons x xs ih =>
    obtain ⟨a, b⟩ := x
    simp only [sLookup]
    split_ifs with h
    · simpa using hl (a, b) (List.mem_cons_self _ _)
    · exact ih (fun p hp => hl p (List.mem_cons_of_mem _ hp))

theorem mem_PROFILES {k : String} {p : Profile} (h : (k, p) ∈ PROFILES) :
    p = allProfile ∨ p = peopleProfile ∨ p = servicesProfile ∨ p = economyEnvProfile := by
  simp only [PROFILES, List.mem_cons, List.not_mem_nil, or_false, Prod.mk.injEq] at h
  rcases h with ⟨-, h⟩ | ⟨-, h⟩ | ⟨-, h⟩ | ⟨-, h⟩ <;> tauto

theorem profile_weights_zero_or_one (p : Profile)
    (hp : p = allProfile ∨ p = peopleProfile ∨ p = servicesProfile ∨ p = economyEnvProfile) :
    (∀ q ∈ p.categoryWeights, q.2 = 0 ∨ q.2 = 1) ∧
      (p.defaultForOthers = 0 ∨ p.defaultForOthers = 1) := by
  rcases hp with rfl | rfl | rfl | rfl <;> exact ⟨by decide, by decide⟩

theorem getProfileMultiplier_zero_or_one (k c : String) :
    getProfileMultiplier k c = 0 ∨ getProfileMultiplier k c = 1 := by
  unfold getProfileMultiplier
  split_ifs with hall
  · exact Or.inr rfl
  · cases hk : sLookup PROFILES k with
    | none =>
      simp only [hk, Option.getD_none]
      exact weights_lookup_zero_or_one _ _ (by decide) (by decide) c
    | some p =>
      simp only [hk, Option.getD_some]
      obtain ⟨hw, hd⟩ := profile_weights_zero_or_one p (mem_PROFILES (sLookup_mem hk))
      exact weights_lookup_zero_or_one _ _ hw hd c

theorem getProfileMultiplier_isNat (k c : String) :
    IsNatValued (getProfileMultiplier k c) := by
  rcases getProfileMultiplier_zero_or_one k c with h | h <;> rw [h] <;> decide

theorem answerValue_isNat (answers : List (String × ℚ))
    (hAns : ∀ p ∈ answers, IsNatValued p.2) (aid : String) :
    IsNatValued ((sLookup answers aid).getD 3) := by
  cases hl : sLookup answers aid with
  | none => simp only [Option.getD_none]; decide
  | some v =>
    simp only [Option.getD_some]
    exact hAns (aid, v) (sLookup_mem hl)

theorem rawOf_isNat (inp : ScoreInput)
    (hAns : ∀ p ∈ inp.answers, IsNatValued p.2)
    (hPri : ∀ w ∈ inp.hazardWeights, ∀ p ∈ w.2, IsNatValued p.2.priority)
    (h : Hazard) : IsNatValued (inp.rawOf h) := by
  unfold ScoreInput.rawOf rawScoreOf
  cases hw : sLookup inp.hazardWeights h.id with
  | none =>
    simp only [Option.getD_none]
    rw [rawScoreEntries_eq_sum]
    exact isNatValued_sum _ (by simp)
  | some entries =>
    have hP : ∀ p ∈ entries, IsNatValued p.2.priority :=
      hPri (h.id, entries) (sLookup_mem hw)
    simp only [Option.getD_some]
    rw [rawScoreEntries_eq_sum]
    apply isNatValued_sum
    intro q hq
    obtain ⟨p, hp, rfl⟩ := List.mem_map.mp hq
    rw [termValue_eq]
    exact ((hP p hp).mul (answerValue_isNat inp.answers hAns p.1)).mul
      (getProfileMultiplier_isNat inp.profileKey (categoryOf inp.attributes p.1))

/-- Claim C2: within one scoring computation, the displayed score is
`round(rawScore / M × 100)` with `M` the maximum raw score floored at 1;
it is monotonic in the raw score, always lies in [0, 100], reaches exactly
100 for some hazard whenever a hazard has positive raw score, and is 0 for
every hazard when all raw scores are 0. The hypotheses record that answers
and priorities are nonnegative integers, which the survey widget (values
1-5) and `letterToPriority` (values 0,1,3,5) guarantee. -/
theorem spec_C2 (inp : ScoreInput)
    (hAns : ∀ p ∈ inp.answers, IsNatValued p.2)
    (hPri : ∀ w ∈ inp.hazardWeights, ∀ p ∈ w.2, IsNatValued p.2.priority) :
    (1 ≤ inp.maxScore ∧
      ∀ h : Hazard, inp.normalisedOf h = jsRound (inp.rawOf h / inp.maxScore * 100)) ∧
    (∀ g1 g2 : Hazard,
      (inp.rawOf g1 = inp.rawOf g2 → inp.normalisedOf g1 = inp.normalisedOf g2) ∧
      (inp.rawOf g1 ≤ inp.rawOf g2 → inp.normalisedOf g1 ≤ inp.normalisedOf g2)) ∧
    (∀ h ∈ inp.hazards, 0 ≤ inp.normalisedOf h ∧ inp.normalisedOf h ≤ 100) ∧
    ((∃ h ∈ inp.hazards, 0 < inp.rawOf h) →
      ∃ h ∈ inp.hazards, inp.normalisedOf h = 100) ∧
    ((∀ h ∈ inp.hazards, inp.rawOf h = 0) →
      ∀ h ∈ inp.hazards, inp.normalisedOf h = 0) := by
  have hM1 : 1 ≤ inp.maxScore := one_le_maxRaw _
  have hM0 : (0 : ℚ) < inp.maxScore := lt_of_lt_of_le zero_lt_one hM1
  have hRawN : ∀ h : Hazard, IsNatValued (inp.rawOf h) := rawOf_isNat inp hAns hPri
  refine ⟨⟨hM1, fun h => rfl⟩, ?_, ?_, ?_, ?_⟩
  · intro g1 g2
    constructor
    · intro he
      simp only [ScoreInput.normalisedOf, ScoreInput.normOf, he]
    · intro hle
      apply jsRound_mono
      simp only [ScoreInput.normOf]
      have : inp.rawOf g1 / inp.maxScore ≤ inp.rawOf g2 / inp.maxScore := by gcongr
      nlinarith [this]
  · intro h hmem
    constructor
    · exact jsRound_nonneg (mul_nonneg (div_nonneg (hRawN h).nonneg hM0.le) (by norm_num))
    · apply jsRound_le_hundred
      simp only [ScoreInput.normOf]
      have hle : inp.rawOf h ≤ inp.maxScore :=
        le_maxRaw_of_mem (List.mem_map_of_mem inp.rawOf hmem)
      have hdiv : inp.rawOf h / inp.maxScore ≤ 1 := (div_le_one hM0).mpr hle
      nlinarith [hdiv]
  · rintro ⟨g0, hmem0, hpos0⟩
    have h1le : (1 : ℚ) ≤ inp.rawOf g0 := (hRawN g0).one_le_of_pos hpos0
    have hmem' : inp.maxScore ∈ inp.rawValues := by
      rcases (maxRaw_mem_or_one inp.rawValues :
          inp.maxScore ∈ inp.rawValues ∨ inp.maxScore = 1) with hm | he
      · exact hm
      · have hle0 : inp.rawOf g0 ≤ inp.maxScore :=
          le_maxRaw_of_mem (List.mem_map_of_mem inp.rawOf hmem0)
        have he2 : inp.maxScore = 1 := he
        have heq : inp.rawOf g0 = inp.maxScore := le_antisymm hle0 (by rw [he2]; exact h1le)
        rw [← heq]
        exact List.mem_map_of_mem inp.rawOf hmem0
    obtain ⟨gstar, hmemS, hrawS⟩ := List.mem_map.mp hmem'
    refine ⟨gstar, hmemS, ?_⟩
    simp only [ScoreInput.normalisedOf, ScoreInput.normOf]
    rw [hrawS, div_self (ne_of_gt hM0), one_mul]
    exact jsRound_hundred
  · intro hall h hmem
    simp only [ScoreInput.normalisedOf, ScoreInput.normOf]
    rw [hall h hmem, zero_div, zero_mul]
    exact jsRound_zero

/-- Witness for C2: a concrete computation with raw scores 25 and 0; its
displayed scores lie in [0, 100]. -/
theorem spec_C2_witness :
    0 ≤ egInputA.normalisedOf ⟨"H1", "H1", "Hazard one"⟩ ∧
      egInputA.normalisedOf ⟨"H1", "H1", "Hazard one"⟩ ≤ 100 :=
  (spec_C2 egInputA (by decide) (by decide)).2.2.1 ⟨"H1", "H1", "Hazard one"⟩ (by decide)

theorem egInputB_raw1 : egInputB.rawOf ⟨"H1", "H1", "h1"⟩ = 2 := by
  simp [egInputB, ScoreInput.rawOf, rawScoreOf, rawScoreEntries, termValue, sLookup,
    getProfileMultiplier, categoryOf, PROFILES, maxRaw, List.find?]

theorem egInputB_max : egInputB.maxScore = 3 := by
  have h1 : ((3 : ℚ) ⊔ 1) = 3 := max_eq_left (by norm_num)
  have h2 : ((2 : ℚ) ⊔ 3) = 3 := max_eq_right (by norm_num)
  simp [egInputB, ScoreInput.maxScore, ScoreInput.rawValues, ScoreInput.rawOf, rawScoreOf,
    rawScoreEntries, termValue, sLookup, getProfileMultiplier, categoryOf, PROFILES,
    maxRaw, List.find?]
  norm_num [h1, h2]

theorem egInputB_norm : egInputB.normOf ⟨"H1", "H1", "h1"⟩ = 200/3 := by
  show egInputB.rawOf ⟨"H1", "H1", "h1"⟩ / egInputB.maxScore * 100 = 200/3
  rw [egInputB_raw1, egInputB_max]
  norm_num

/-- Counterexample to claim C3 as stated: in the computation `egInputB` the
hazard H1 has rounded normalised score 67, yet its band is not High — the
source assigns the band from the unrounded norm 200/3 < 67 (App.jsx
line 736 tests `norm`, not `h.normalised`). -/
theorem spec_C3_counterexample :
    67 ≤ egInputB.normalisedOf ⟨"H1", "H1", "h1"⟩ ∧
      egInputB.bandOfHaz ⟨"H1", "H1", "h1"⟩ ≠ "High" := by
  constructor
  · have hj : egInputB.normalisedOf ⟨"H1", "H1", "h1"⟩ = 67 := by
      show jsRound (egInputB.normOf ⟨"H1", "H1", "h1"⟩) = 67
      rw [egInputB_norm]
      norm_num [jsRound, Rat.floor_def']
    rw [hj]
  · show bandOf (egInputB.normOf ⟨"H1", "H1", "h1"⟩) ≠ "High"
    rw [egInputB_norm]
    unfold bandOf
    rw [if_neg (by norm_num), if_pos (by norm_num)]
    decide

/-- Claim C3 (amended): the band is assigned from the unrounded normalised
value `norm = rawScore / M × 100` — High iff norm ≥ 67, Medium iff
34 ≤ norm < 67, Low iff norm < 34 — with the same fixed thresholds for
every profile; the displayed integer score is the rounding of that value,
so a hazard displaying 67 can band Medium. -/
theorem spec_C3_amended (inp : ScoreInput) (h : Hazard) :
    (inp.bandOfHaz h = "High" ↔ 67 ≤ inp.normOf h) ∧
    (inp.bandOfHaz h = "Medium" ↔ 34 ≤ inp.normOf h ∧ inp.normOf h < 67) ∧
    (inp.bandOfHaz h = "Low" ↔ inp.normOf h < 34) := by
  simp only [ScoreInput.bandOfHaz, bandOf]
  split_ifs with hge67 hge34
  · refine ⟨by simp [hge67], ?_, ?_⟩
    · constructor
      · intro hc; exact absurd hc (by decide)
      · rintro ⟨-, hlt⟩; linarith
    · constructor
      · intro hc; exact absurd hc (by decide)
      · intro hlt; linarith
  · refine ⟨?_, ?_, ?_⟩
    · constructor
      · intro hc; exact absurd hc (by decide)
      · intro hge; exact absurd hge hge67
    · simp [hge34, lt_of_not_le hge67]
    · constructor
      · intro hc; exact absurd hc (by decide)
      · intro hlt; linarith
  · refine ⟨?_, ?_, ?_⟩
    · constructor
      · intro hc; exact absurd hc (by decide)
      · intro hge; exact absurd hge hge67
    · constructor
      · intro hc; exact absurd hc (by decide)
      · rintro ⟨hge, -⟩; exact absurd hge hge34
    · simp [lt_of_not_le hge34]

/-- Witness for the amended C3: H1 of `egInputB` has norm 200/3 and bands
Medium. -/
theorem spec_C3_witness : egInputB.bandOfHaz ⟨"H1", "H1", "h1"⟩ = "Medium" :=
  (spec_C3_amended egInputB ⟨"H1", "H1", "h1"⟩).2.1.mpr
    ⟨by rw [egInputB_norm]; norm_num, by rw [egInputB_norm]; norm_num⟩

/-- Counterexample to claim C4 as stated: the claim sends every input other
than the five uppercase letters — explicitly including lowercase letters —
to 0, but the source uppercases first, so "b" gets priority 1. -/
theorem spec_C4_counterexample :
    letterToPriority "b" = 1 ∧ letterToPriority "b" ≠ 0 := by
  decide

/-- Claim C4 (amended): `letterToPriority` is a total pure function that
first trims whitespace and uppercases its input, then maps A→0, B→1, C→3,
D→5, E→5 and every unrecognised normalised input to 0, never raising; so
lowercase or whitespace-padded forms of the five letters receive their
letter's priority rather than 0. -/
theorem spec_C4_amended :
    (letterToPriority "A" = 0 ∧ letterToPriority "B" = 1 ∧ letterToPriority "C" = 3 ∧
      letterToPriority "D" = 5 ∧ letterToPriority "E" = 5) ∧
    (letterToPriority " b " = 1 ∧ letterToPriority "c" = 3 ∧ letterToPriority "\te\n" = 5) ∧
    (∀ s : String, jsToUpper (jsTrim s) ∉ (["A", "B", "C", "D", "E"] : List String) →
      letterToPriority s = 0) := by
  refine ⟨by decide, by decide, ?_⟩
  intro s hs
  simp only [List.mem_cons, List.not_mem_nil, or_false, not_or] at hs
  obtain ⟨h1, h2, h3, h4, h5⟩ := hs
  simp only [letterToPriority]
  rw [if_neg h1, if_neg h2, if_neg h3, if_neg h4, if_neg h5]

/-- Witness for the amended C4: "zz" normalises to "ZZ", which is not a
recognised letter, so its priority is 0. -/
theorem spec_C4_witness : letterToPriority "zz" = 0 :=
  spec_C4_amended.2.2 "zz" (by decide)

/-- Claim C6: the "all" profile multiplies every category by 1
unconditionally; every other known profile returns its explicit category
weight when present and its `defaultForOthers` otherwise; an unknown
profile key behaves exactly like "all" (multiplier 1 for every category). -/
theorem spec_C6 (category : String) :
    getProfileMultiplier "all" category = 1 ∧
    (∀ key : String, ∀ p : Profile, sLookup PROFILES key = some p → key ≠ "all" →
      getProfileMultiplier key category =
        (sLookup p.categoryWeights category).getD p.defaultForOthers) ∧
    (∀ key : String, sLookup PROFILES key = none →
      getProfileMultiplier key category = 1 ∧
      getProfileMultiplier key category = getProfileMultiplier "all" category) := by
  refine ⟨rfl, ?_, ?_⟩
  · intro key p hk hne
    simp only [getProfileMultiplier]
    rw [if_neg hne, hk]
    rfl
  · intro key hk
    have hne : key ≠ "all" := by
      intro he
      subst he
      simp [PROFILES, sLookup] at hk
    have h1 : getProfileMultiplier key category = 1 := by
      simp only [getProfileMultiplier]
      rw [if_neg hne, hk]
      rfl
    exact ⟨h1, h1⟩

/-- Witness for C6: the known profile "people" weights "Impact – people"
with its explicit entry 1; the unknown key "mystery" behaves like "all". -/
theorem spec_C6_witness :
    getProfileMultiplier "people" "Impact – people" = 1 ∧
    getProfileMultiplier "mystery" "Hazard" = 1 := by
  constructor
  · have h := (spec_C6 "Impact – people").2.1 "people" peopleProfile (by decide) (by decide)
    rw [h]
    decide
  · exact ((spec_C6 "Hazard").2.2 "mystery" (by decide)).1

theorem rawScoreEntries_append_single (attributes : List AttributeRec)
    (answers : List (String × ℚ)) (pk aid : String) (info : RelInfo)
    (entries : List (String × RelInfo)) :
    rawScoreEntries attributes answers pk (entries ++ [(aid, info)]) =
      rawScoreEntries attributes answers pk entries +
        termValue attributes answers pk aid info := by
  unfold rawScoreEntries
  rw [List.foldl_append]
  simp only [List.foldl_cons, List.foldl_nil]

/-- Claim C10: a relevance entry whose attribute id matches no loaded
attribute still participates in scoring with category "Other": under the
"all" profile or any unknown profile key it adds priority × answer × 1 to
the raw score, and under any known profile with `defaultForOthers = 0` and
no explicit "Other" weight it adds nothing. -/
theorem spec_C10 (attributes : List AttributeRec) (answers : List (String × ℚ))
    (entries : List (String × RelInfo)) (aid : String) (info : RelInfo) (pk : String)
    (hmiss : attributes.find? (fun a => a.id == aid) = none) :
    categoryOf attributes aid = "Other" ∧
    ((pk = "all" ∨ sLookup PROFILES pk = none) →
      rawScoreEntries attributes answers pk (entries ++ [(aid, info)]) =
        rawScoreEntries attributes answers pk entries +
          info.priority * ((sLookup answers aid).getD 3)) ∧
    (∀ p : Profile, sLookup PROFILES pk = some p → p.defaultForOthers = 0 →
      sLookup p.categoryWeights "Other" = none →
      rawScoreEntries attributes answers pk (entries ++ [(aid, info)]) =
        rawScoreEntries attributes answers pk entries) := by
  have hcat : categoryOf attributes aid = "Other" := by
    unfold categoryOf
    rw [hmiss]
  refine ⟨hcat, ?_, ?_⟩
  · intro hpk
    rw [rawScoreEntries_append_single]
    congr 1
    rw [termValue_eq, hcat]
    have hm : getProfileMultiplier pk "Other" = 1 := by
      rcases hpk with rfl | hnone
      · rfl
      · have hne : pk ≠ "all" := by
          intro he
          subst he
          simp [PROFILES, sLookup] at hnone
        simp only [getProfileMultiplier]
        rw [if_neg hne, hnone]
        rfl
    rw [hm, mul_one]
  · intro p hp hd hw
    rw [rawScoreEntries_append_single]
    have hne : pk ≠ "all" := by
      intro he
      subst he
      have hq : sLookup PROFILES "all" = some allProfile := by decide
      rw [hq] at hp
      have hall : p = allProfile := (Option.some.inj hp).symm
      rw [hall] at hd
      exact absurd hd (by decide)
    have hm : getProfileMultiplier pk "Other" = 0 := by
      simp only [getProfileMultiplier]
      rw [if_neg hne, hp]
      simp only [Option.getD_some]
      rw [hw]
      simpa using hd
    rw [termValue_eq, hcat, hm, mul_zero, add_zero]

/-- Witness for C10: an entry with unmatched attribute id "X" and priority 5
contributes 5 × 3 = 15 under "all" and nothing under "people". -/
theorem spec_C10_witness :
    rawScoreEntries [] [] "all" [("X", ⟨"D", 5⟩)] = 15 ∧
    rawScoreEntries [] [] "people" [("X", ⟨"D", 5⟩)] = 0 := by
  constructor
  · have h := (spec_C10 [] [] [] "X" ⟨"D", 5⟩ "all" (by decide)).2.1 (Or.inl rfl)
    simp only [List.nil_append] at h
    rw [h]
    simp [rawScoreEntries, sLookup]
    norm_num
  · have h := (spec_C10 [] [] [] "X" ⟨"D", 5⟩ "people" (by decide)).2.2
      peopleProfile (by decide) (by decide) (by decide)
    simp only [List.nil_append] at h
    rw [h]
    simp [rawScoreEntries]

theorem weightedIndex_go (cells : List (String × Cell)) (pre : String) :
    ∀ (lvls : List ℚ) (a : ℚ),
      lvls.foldl (fun sum lvl =>
        match cellOf cells (pre ++ toString lvl) with
        | Cell.num n => sum + lvl * n
        | _ => sum) a =
      a + (lvls.map (fun lvl =>
        lvl * cellValue (cellOf cells (pre ++ toString lvl)))).sum := by
  intro lvls
  induction lvls with
  | nil => simp
  | cons x xs ih =>
    intro a
    simp only [List.foldl_cons, List.map_cons, List.sum_cons]
    rw [ih]
    cases hc : cellOf cells (pre ++ toString x) <;> (simp [cellValue, hc]; try ring)

/-- Claim C5: the weighted exposure index of a row is the sum over levels
1..5 of level × value of the field `{prefix}{level}` (the bare level digits
when the prefix is empty), where missing, empty, "N/A" and non-numeric
cells contribute 0; and a category is recorded in a row's metrics — and
hence in the exposure model — exactly when this sum is strictly positive,
so an all-missing or all-zero row produces no entry rather than an entry
of 0. -/
theorem spec_C5 (cells : List (String × Cell)) :
    (∀ pre : String, weightedIndex cells pre = claimIndex cells pre) ∧
    (∀ np ∈ CATEGORY_NAMES, ∀ v : ℚ,
      ((np.1, v) ∈ rowMetrics cells ↔ v = weightedIndex cells np.2 ∧ 0 < v)) ∧
    (∀ row : ExpoRow, row.code ≠ "" →
      sLookup (parseExposure [row]) row.code =
        if rowMetrics row.cells = [] then none else some (rowMetrics row.cells)) := by
  refine ⟨?_, ?_, ?_⟩
  · intro pre
    unfold weightedIndex claimIndex
    rw [weightedIndex_go, zero_add]
  · intro np hnp v
    fin_cases hnp <;>
      (simp only [rowMetrics]; split_ifs <;> simp_all [Prod.ext_iff])
  · intro row hcode
    unfold parseExposure
    simp only [List.foldl_cons, List.foldl_nil]
    rw [if_neg hcode]
    split_ifs with hm
    · simp [sLookup]
    · simp [setKey, sLookup]

/-- Witness for C5: the spec's scenario row `Lands1=2, Lands3=4` has Lands
index 1×2 + 3×4 = 14 > 0 and is therefore recorded. -/
theorem spec_C5_witness : ("Lands", (14 : ℚ)) ∈ rowMetrics egLandsCells := by
  have e1 : cellOf egLandsCells ("Lands" ++ toString (1 : ℚ)) = Cell.num 2 := by decide
  have e2 : cellOf egLandsCells ("Lands" ++ toString (2 : ℚ)) = Cell.missing := by decide
  have e3 : cellOf egLandsCells ("Lands" ++ toString (3 : ℚ)) = Cell.num 4 := by decide
  have e4 : cellOf egLandsCells ("Lands" ++ toString (4 : ℚ)) = Cell.missing := by decide
  have e5 : cellOf egLandsCells ("Lands" ++ toString (5 : ℚ)) = Cell.missing := by decide
  have hw : weightedIndex egLandsCells "Lands" = 14 := by
    simp only [weightedIndex, LEVELS, List.foldl_cons, List.foldl_nil, e1, e2, e3, e4, e5]
    norm_num
  exact ((spec_C5 egLandsCells).2.1 ("Lands", "Lands") (by decide) 14).mpr
    ⟨hw.symm, by norm_num⟩

theorem maxExposureOf_nonneg (exposures : List (String × List (String × ℚ)))
    (t : String) (hazards : List Hazard) : 0 ≤ maxExposureOf exposures t hazards := by
  suffices hgen : ∀ (hs : List Hazard) (a : ℚ), 0 ≤ a →
      0 ≤ hs.foldl (fun acc h =>
        match recordedExposure exposures t h with
        | none => acc
        | some v => if acc < v then v else acc) a from
    hgen hazards 0 le_rfl
  intro hs
  induction hs with
  | nil => intro a ha; simpa using ha
  | cons x xs ih =>
    intro a ha
    simp only [List.foldl_cons]
    apply ih
    cases recordedExposure exposures t x with
    | none => exact ha
    | some v =>
      dsimp only
      split_ifs with hv
      · linarith
      · exact ha

/-- Claim C7: for a chosen exposure category, if `maxExposure` is 0 every
hazard's exposure normalisation is null; otherwise it is
`value / maxExposure × 100` for every hazard with a recorded value for the
category and null — never a default 0 — for every hazard without one. -/
theorem spec_C7 (exposures : List (String × List (String × ℚ))) (t : String)
    (hazards : List Hazard) :
    (maxExposureOf exposures t hazards = 0 →
      ∀ h : Hazard, exposureNormOf exposures t hazards h = none) ∧
    (maxExposureOf exposures t hazards ≠ 0 →
      ∀ h : Hazard, exposureNormOf exposures t hazards h =
        (recordedExposure exposures t h).map
          (fun v => v / maxExposureOf exposures t hazards * 100)) := by
  constructor
  · intro h0 h
    simp [exposureNormOf, h0]
  · intro hne h
    have hpos : 0 < maxExposureOf exposures t hazards :=
      lt_of_le_of_ne (maxExposureOf_nonneg exposures t hazards) (Ne.symm hne)
    simp only [exposureNormOf]
    rw [if_pos hpos]
    cases recordedExposure exposures t h with
    | none => simp
    | some v => simp

/-- Witness for C7: with one recorded value 10 for H1 under "Lands",
`maxExposure` is 10, H2 (no data) gets null and H1 gets 10/10×100 = 100. -/
theorem spec_C7_witness :
    exposureNormOf [("H1", [("Lands", 10)])] "Lands"
      [⟨"H1", "H1", "n1"⟩, ⟨"H2", "H2", "n2"⟩] ⟨"H2", "H2", "n2"⟩ = none ∧
    exposureNormOf [("H1", [("Lands", 10)])] "Lands"
      [⟨"H1", "H1", "n1"⟩, ⟨"H2", "H2", "n2"⟩] ⟨"H1", "H1", "n1"⟩ = some 100 := by
  have h := (spec_C7 [("H1", [("Lands", 10)])] "Lands"
    [⟨"H1", "H1", "n1"⟩, ⟨"H2", "H2", "n2"⟩]).2 (by decide)
  constructor
  · rw [h ⟨"H2", "H2", "n2"⟩]
    have hr : recordedExposure [("H1", [("Lands", 10)])] "Lands" ⟨"H2", "H2", "n2"⟩ =
        none := by decide
    rw [hr]
    rfl
  · rw [h ⟨"H1", "H1", "n1"⟩]
    have hr : recordedExposure [("H1", [("Lands", 10)])] "Lands" ⟨"H1", "H1", "n1"⟩ =
        some 10 := by decide
    have hmx : maxExposureOf [("H1", [("Lands", 10)])] "Lands"
        [⟨"H1", "H1", "n1"⟩, ⟨"H2", "H2", "n2"⟩] = 10 := by decide
    rw [hr, Option.map_some', hmx]
    norm_num

theorem keyLe_trans {α β : Type} [LinearOrder β] (key : α → β) (a b c : α)
    (hab : decide (key b ≤ key a) = true) (hbc : decide (key c ≤ key b) = true) :
    decide (key c ≤ key a) = true := by
  simp only [decide_eq_true_eq] at hab hbc ⊢
  exact le_trans hbc hab

theorem keyLe_total {α β : Type} [LinearOrder β] (key : α → β) (a b : α) :
    (decide (key b ≤ key a) || decide (key a ≤ key b)) = true := by
  simp only [Bool.or_eq_true, decide_eq_true_eq]
  exact le_total _ _

theorem pairwise_mergeSort_key {α β : Type} [LinearOrder β] (key : α → β) (l : List α) :
    (l.mergeSort (fun a b => decide (key b ≤ key a))).Pairwise (fun a b => key b ≤ key a) := by
  have h := List.sorted_mergeSort (keyLe_trans key) (keyLe_total key) l
  exact h.imp (fun hab => of_decide_eq_true hab)

theorem filter_mergeSort_key {α β : Type} [LinearOrder β] (key : α → β)
    (l : List α) (k : β) :
    (l.mergeSort (fun a b => decide (key b ≤ key a))).filter (fun a => decide (key a = k)) =
      l.filter (fun a => decide (key a = k)) := by
  have hpair : (l.filter (fun a => decide (key a = k))).Pairwise
      (fun a b => (fun a b => decide (key b ≤ key a)) a b = true) := by
    apply List.pairwise_of_forall_mem_list
    intro a ha b hb
    have hka : key a = k := by simpa using (List.mem_filter.mp ha).2
    have hkb : key b = k := by simpa using (List.mem_filter.mp hb).2
    simp [hka, hkb]
  have hsub : List.Sublist (l.filter (fun a => decide (key a = k)))
      (l.mergeSort (fun a b => decide (key b ≤ key a))) :=
    List.sublist_mergeSort (keyLe_trans key) (keyLe_total key) hpair (List.filter_sublist l)
  have heq : (l.filter (fun a => decide (key a = k))).filter (fun a => decide (key a = k)) =
      l.filter (fun a => decide (key a = k)) := by
    apply List.filter_eq_self.mpr
    intro a ha
    exact (List.mem_filter.mp ha).2
  have hsub2 : List.Sublist (l.filter (fun a => decide (key a = k)))
      ((l.mergeSort (fun a b => decide (key b ≤ key a))).filter
        (fun a => decide (key a = k))) := by
    rw [← heq]
    exact List.Sublist.filter _ hsub
  have hlen : (l.filter (fun a => decide (key a = k))).length =
      ((l.mergeSort (fun a b => decide (key b ≤ key a))).filter
        (fun a => decide (key a = k))).length :=
    (((List.mergeSort_perm l _).filter _).length_eq).symm
  exact (List.Sublist.eq_of_length hsub2 hlen).symm

/-- Claim C8: the scored hazard list is sorted by `normalised` descending,
and the sort is stable: it is a permutation of the scored list built in
hazard-table order, and for every score value the hazards carrying it keep
exactly their input relative order (their filtered subsequence is
unchanged). -/
theorem spec_C8 (inp : ScoreInput) :
    (sortedScoredList inp).Perm (scoredList inp) ∧
    (sortedScoredList inp).Pairwise (fun a b => b.normalised ≤ a.normalised) ∧
    (∀ k : ℤ, (sortedScoredList inp).filter (fun s => decide (s.normalised = k)) =
      (scoredList inp).filter (fun s => decide (s.normalised = k))) := by
  refine ⟨List.mergeSort_perm _ _, ?_, ?_⟩
  · exact pairwise_mergeSort_key (fun s => s.normalised) (scoredList inp)
  · intro k
    exact filter_mergeSort_key (fun s => s.normalised) (scoredList inp) k

theorem getProfileMultiplier_all (category : String) :
    getProfileMultiplier "all" category = 1 :=
  rfl

/-- Claim C9: the breakdown produces one row per relevance entry of the
hazard, each row's contribution is userImportance × priority with the
answer defaulting to 3 and no profile multiplier (the rows are computed
from attributes, answers and the hazard's entries alone, identically for
every selected profile — their contributions sum to the "all"-profile raw
score), and the rows are sorted by contribution descending. -/
theorem spec_C9 (attributes : List AttributeRec) (answers : List (String × ℚ))
    (entries : List (String × RelInfo)) :
    (explainRows attributes answers entries).Perm
      (entries.map (fun p => mkBreakdownRow attributes answers p.1 p.2)) ∧
    (∀ p : String × RelInfo, p ∈ entries →
      (mkBreakdownRow attributes answers p.1 p.2).userImp = (sLookup answers p.1).getD 3 ∧
      (mkBreakdownRow attributes answers p.1 p.2).contribution =
        ((sLookup answers p.1).getD 3) * p.2.priority) ∧
    (explainRows attributes answers entries).Pairwise
      (fun a b => b.contribution ≤ a.contribution) ∧
    ((explainRows attributes answers entries).map (fun r => r.contribution)).sum =
      rawScoreEntries attributes answers "all" entries := by
  refine ⟨List.mergeSort_perm _ _, fun p _ => ⟨rfl, rfl⟩, ?_, ?_⟩
  · exact pairwise_mergeSort_key (fun r : BreakdownRow => r.contribution)
      (entries.map (fun p => mkBreakdownRow attributes answers p.1 p.2))
  · have hperm := (List.mergeSort_perm
      (entries.map (fun p => mkBreakdownRow attributes answers p.1 p.2))
      (fun a b => decide (b.contribution ≤ a.contribution))).map
      (fun r : BreakdownRow => r.contribution)
    unfold explainRows
    rw [List.Perm.sum_eq hperm, List.map_map, rawScoreEntries_eq_sum]
    congr 1
    apply List.map_congr_left
    intro p _
    rw [termValue_eq, getProfileMultiplier_all, mul_one]
    simp only [Function.comp_apply, mkBreakdownRow]
    ring

/-- Witness for C9: a single entry with priority 1 and no recorded answer
produces contribution 3 × 1 = 3. -/
theorem spec_C9_witness : (mkBreakdownRow [] [] "A1" ⟨"B", 1⟩).contribution = 3 := by
  have h := ((spec_C9 [] [] [("A1", ⟨"B", 1⟩)]).2.1 ("A1", ⟨"B", 1⟩) (by decide)).2
  rw [h]
  norm_num [sLookup]

end Survey
